import Mathlib

/-
Verification development for the pulse development-loop supervisor
(Go source: main.go, current revision 0.0.3).

The embedding is shallow: the change-detector's walk callbacks become
folds over an explicit list of walk entries; the fingerprint map
`lastModified : map[string]time.Time` becomes an association list from
path to a Nat modification timestamp (`time.After` is strict `<` on
Nat); channel sends become counters or event lists; the package-level
`cmd *exec.Cmd` becomes an `Option` field in an explicit supervisor
state; `os/exec` outcomes (build exit status, Start success) are inputs
of the model.
-/

namespace Pulse

/-- Modification timestamps are modelled as naturals; Go's
`modTime.After(lastMod)` is strict order on these. -/
abbrev ModTime := Nat

/-- One filesystem object seen by `filepath.Walk`: its path, whether it
is a directory, and its modification time (from `os.FileInfo`). -/
structure FileInfo where
  path : String
  isDir : Bool
  modTime : ModTime
deriving DecidableEq

/-- One invocation of the walk callback: either a normal entry, or an
entry where the walk passes a non-nil error (permission denied, vanished
path). -/
inductive WalkEntry where
  | ok (info : FileInfo)
  | fail (e : String)
deriving DecidableEq

/-- The `lastModified` fingerprint table, `map[string]time.Time` in the
source, as an association list path to timestamp. -/
abbrev Fingerprints := List (String × ModTime)

/-- Map lookup: `lastMod, exists := lastModified[path]`. -/
def lookupMod : Fingerprints → String → Option ModTime
  | [], _ => none
  | (q, t) :: rest, p => if q = p then some t else lookupMod rest p

/-- Map store: `lastModified[path] = modTime` (update the existing key
or add a new one). -/
def insertMod : Fingerprints → String → ModTime → Fingerprints
  | [], p, t => [(p, t)]
  | (q, t0) :: rest, p, t =>
    if q = p then (q, t) :: rest else (q, t0) :: insertMod rest p t

/-- Embeds `strings.HasSuffix` on the character sequences of the two
strings (Go compares the byte suffix; on these ASCII extension strings
the character and byte comparisons agree). -/
def hasSfx (s post : String) : Bool :=
  List.isSuffixOf post.data s.data

/-- Embeds `shouldWatch` (main.go:286-293): the filename matches when
some configured extension is a suffix of it. -/
def shouldWatch (exts : List String) (filename : String) : Bool :=
  exts.any (fun ext => hasSfx filename ext)

/-- The error text built by `fmt.Errorf("Exceeded max watchers limit: %d", ...)`. -/
def watchLimitMsg (mw : Nat) : String :=
  "Exceeded max watchers limit: " ++ toString mw

/-- One callback invocation of the initial walk (main.go:209-223):
directories and unmatched files are skipped; a matched file is recorded,
and the walk fails when the table size strictly exceeds the limit. -/
def initStep (exts : List String) (mw : Nat) (tbl : Fingerprints) :
    WalkEntry → Except String Fingerprints
  | WalkEntry.fail m => Except.error m
  | WalkEntry.ok info =>
    if info.isDir || !shouldWatch exts info.path then Except.ok tbl
    else
      let tbl1 := insertMod tbl info.path info.modTime
      if tbl1.length > mw then Except.error (watchLimitMsg mw)
      else Except.ok tbl1

/-- The whole initial tree walk: fold `initStep` over the entries,
aborting at the first error, exactly as `filepath.Walk` aborts when the
callback returns a non-nil error. -/
def initialWalk (exts : List String) (mw : Nat) :
    Fingerprints → List WalkEntry → Except String Fingerprints
  | tbl, [] => Except.ok tbl
  | tbl, e :: es =>
    match initStep exts mw tbl e with
    | Except.error m => Except.error m
    | Except.ok tbl1 => initialWalk exts mw tbl1 es

/-- State threaded through one per-tick walk: the fingerprint table and
the `changes` flag, plus the log of paths reported by
`fmt.Printf(" File changed: ...")`. -/
structure TickState where
  tbl : Fingerprints
  changes : Bool
  changedLog : List String
deriving DecidableEq

/-- The state at the start of a tick: `changes := false`, table carried
over from the previous pass. -/
def tickInit (tbl : Fingerprints) : TickState :=
  { tbl := tbl, changes := false, changedLog := [] }

/-- The change test `!exists || modTime.After(lastMod)` (main.go:259):
the file is absent from the table, or its timestamp strictly advanced. -/
def changedCheck (tbl : Fingerprints) (info : FileInfo) : Bool :=
  match lookupMod tbl info.path with
  | none => true
  | some t => decide (t < info.modTime)

/-- The body of the change branch (main.go:259-263): set the flag,
store the new timestamp, report the path; a no-change file leaves the
state untouched. -/
def tickRecord (s : TickState) (info : FileInfo) : TickState :=
  if changedCheck s.tbl info then
    { tbl := insertMod s.tbl info.path info.modTime
      changes := true
      changedLog := s.changedLog ++ [info.path] }
  else s

/-- One callback invocation of the per-tick walk (main.go:246-272): a
matched file is changed when it is absent from the table or its
timestamp strictly advanced; a changed file sets the flag and is
re-recorded; a newly discovered file additionally fails the walk when
the table size (after the insertion) has reached the limit. -/
def tickStep (exts : List String) (mw : Nat) (s : TickState) :
    WalkEntry → Except String TickState
  | WalkEntry.fail m => Except.error m
  | WalkEntry.ok info =>
    if info.isDir || !shouldWatch exts info.path then Except.ok s
    else if (lookupMod s.tbl info.path).isNone then
      if mw ≤ (tickRecord s info).tbl.length then
        Except.error (watchLimitMsg mw)
      else Except.ok (tickRecord s info)
    else Except.ok (tickRecord s info)

/-- The whole per-tick tree walk: fold `tickStep`, aborting at the first
error. -/
def tickWalk (exts : List String) (mw : Nat) :
    TickState → List WalkEntry → Except String TickState
  | s, [] => Except.ok s
  | s, e :: es =>
    match tickStep exts mw s e with
    | Except.error m => Except.error m
    | Except.ok s1 => tickWalk exts mw s1 es

/-- Outcome of running the detector over a finite prefix of ticks:
either it hit a fatal walk error (sent on `errCh`, then `return`), with
the number of `buildCh` notifications sent before that, or it is still
running with the current table and notification count. -/
inductive DetectorOutcome where
  | fatal (e : String) (sends : Nat)
  | running (tbl : Fingerprints) (sends : Nat)
deriving DecidableEq

/-- The detector's ticker loop (main.go:238-283): each tick walks the
tree from a fresh `changes := false`; a walk error is sent on `errCh`
and the detector returns; otherwise one `buildCh` notification is sent
iff the tick saw at least one change. -/
def watchTicks (exts : List String) (mw : Nat) :
    Fingerprints → Nat → List (List WalkEntry) → DetectorOutcome
  | tbl, n, [] => DetectorOutcome.running tbl n
  | tbl, n, t :: ts =>
    match tickWalk exts mw (tickInit tbl) t with
    | Except.error e => DetectorOutcome.fatal e n
    | Except.ok s =>
      watchTicks exts mw s.tbl (n + (if s.changes then 1 else 0)) ts

/-- Embeds `watchFiles` (main.go:204-284): initial walk from an empty
table — an error there goes to `errCh` and the detector returns — then
the ticker loop over the given sequence of tick walks. -/
def watchFiles (exts : List String) (mw : Nat)
    (initEntries : List WalkEntry) (ticks : List (List WalkEntry)) :
    DetectorOutcome :=
  match initialWalk exts mw [] initEntries with
  | Except.error e => DetectorOutcome.fatal e 0
  | Except.ok tbl => watchTicks exts mw tbl 0 ticks

/-- A started OS process behind `cmd.Process`: alive until killed. -/
structure ProcHandle where
  alive : Bool
deriving DecidableEq

/-- Models an `exec.Cmd` value: `Process` is `none` until `Start`
succeeds and stays set afterwards. -/
structure GoCmd where
  process : Option ProcHandle
deriving DecidableEq

/-- The supervisor's state: the package-level `cmd *exec.Cmd`, `none`
while no command was ever assigned. -/
structure SupState where
  cmd : Option GoCmd
deriving DecidableEq

/-- Whether a live child process exists: a command is assigned, its
process was started, and that process has not been killed. -/
def processRunning (s : SupState) : Bool :=
  match s.cmd with
  | none => false
  | some c =>
    match c.process with
    | none => false
    | some p => p.alive

/-- Whether the `stopProcess` guard `cmd != nil && cmd.Process != nil`
holds: a process handle is currently tracked. -/
def trackedProcess (s : SupState) : Bool :=
  match s.cmd with
  | none => false
  | some c => c.process.isSome

/-- Embeds `stopProcess` (main.go:323-329): when a command with a
started process is tracked, kill it and reap it (the process remains
tracked but dead); otherwise do nothing. -/
def stopProcess (s : SupState) : SupState :=
  match s.cmd with
  | none => s
  | some c =>
    match c.process with
    | none => s
    | some _ => { cmd := some { process := some { alive := false } } }

/-- Outcomes of the external build and run commands for one
`buildAndRun` invocation: whether `go build` exits zero, and whether
`cmd.Start()` on the artifact succeeds. -/
structure ExecEnv where
  buildOk : Bool
  startOk : Bool
deriving DecidableEq

/-- User-visible events reported by one `buildAndRun` invocation, in
order of the status lines the source prints. -/
inductive Event where
  | buildFailed
  | buildSucceeded
  | runInvoked
  | startFailed
  | started
deriving DecidableEq

/-- Embeds `buildAndRun` (main.go:295-321): a failing build is reported
and the function returns before the run command exists, leaving `cmd`
untouched; on build success `cmd` is assigned the new run command, and
`Start` either installs a live process or fails, reported, with
`cmd.Process` left nil. -/
def buildAndRun (env : ExecEnv) (s : SupState) : SupState × List Event :=
  if env.buildOk = false then (s, [Event.buildFailed])
  else if env.startOk then
    ({ cmd := some { process := some { alive := true } } },
      [Event.buildSucceeded, Event.runInvoked, Event.started])
  else
    ({ cmd := some { process := none } },
      [Event.buildSucceeded, Event.runInvoked, Event.startFailed])

/-- One event consumed by the coordinator's select loop: a `buildCh`
notification (carrying the outcome of the external commands for the
rebuild it triggers), a fatal error from `errCh`, or a `done` shutdown
request. -/
inductive LoopEvent where
  | build (env : ExecEnv)
  | fatal (msg : String)
  | shutdown
deriving DecidableEq

/-- Whether a loop event is a `buildCh` notification. -/
def isBuildEvent : LoopEvent → Bool
  | LoopEvent.build _ => true
  | _ => false

/-- Embeds the coordinator loop and exit path (main.go:99-117): on
`buildCh` stop the process and rebuild, then keep looping; on `errCh`
break with exit code 1; on `done` break with exit code 0; after the
break, `stopProcess` runs and the program exits with the code. `none`
means the given events were exhausted with the loop still running. -/
def runLoop (s : SupState) : List LoopEvent → Option (Nat × SupState)
  | [] => none
  | LoopEvent.build env :: rest =>
    runLoop (buildAndRun env (stopProcess s)).1 rest
  | LoopEvent.fatal _ :: _ => some (1, stopProcess s)
  | LoopEvent.shutdown :: _ => some (0, stopProcess s)

/-- Embeds main's startup and loop (main.go:94-117): an initial
`buildAndRun` from the fresh state (no stop first, `cmd` is nil), then
the event loop. -/
def mainRun (env0 : ExecEnv) (evs : List LoopEvent) : Option (Nat × SupState) :=
  runLoop (buildAndRun env0 { cmd := none }).1 evs

/-- Nanoseconds per millisecond, matching Go's `time.Duration` units. -/
def nsPerMs : Int := 1000000

/-- Nanoseconds per second. -/
def nsPerSec : Int := 1000000000

/-- Embeds the `max_watchers` validation in `loadConfig`
(main.go:154-160): below 1 falls back to the default 100, above 500 is
clamped to 500, otherwise kept. -/
def clampMaxWatchers (m : Int) : Int :=
  if m < 1 then 100
  else if m > 500 then 500
  else m

/-- Embeds the `watch_interval` validation in `loadConfig`
(main.go:162-184). The input is the configured string together with the
result of `time.ParseDuration` on it (`none` for a parse error), since
duration parsing itself is external to the core; the output is the
final interval string and duration in nanoseconds. -/
def clampInterval (raw : String) (parsed : Option Int) : String × Int :=
  let d1 : String × Int :=
    match parsed with
    | none => ("1s", nsPerSec)
    | some d => if raw = "" then ("1s", nsPerSec) else (raw, d)
  if d1.2 < 500 * nsPerMs then ("500ms", 500 * nsPerMs)
  else if d1.2 > 3600 * nsPerSec then ("1h", 3600 * nsPerSec)
  else d1

/-! Helper lemmas about the fingerprint table and the per-tick walk. -/

theorem lookupMod_insertMod_self (tbl : Fingerprints) (p : String) (t : ModTime) :
    lookupMod (insertMod tbl p t) p = some t := by
  induction tbl with
  | nil => simp [insertMod, lookupMod]
  | cons hd rest ih =>
    obtain ⟨q, t0⟩ := hd
    by_cases h : q = p
    · simp [insertMod, h, lookupMod]
    · simp [insertMod, h, lookupMod, ih]

theorem lookupMod_insertMod_ne (tbl : Fingerprints) (p q : String) (t : ModTime)
    (h : q ≠ p) : lookupMod (insertMod tbl p t) q = lookupMod tbl q := by
  have hpq : ¬ p = q := fun hc => h hc.symm
  induction tbl with
  | nil => simp [insertMod, lookupMod, hpq]
  | cons hd rest ih =>
    obtain ⟨q0, t0⟩ := hd
    by_cases h0 : q0 = p
    · subst h0
      simp [insertMod, lookupMod, hpq]
    · simp [insertMod, h0, lookupMod, ih]

theorem lookupMod_insertMod_isSome (tbl : Fingerprints) (p q : String) (t : ModTime)
    (h : (lookupMod tbl q).isSome = true) :
    (lookupMod (insertMod tbl p t) q).isSome = true := by
  by_cases hq : q = p
  · subst hq
    rw [lookupMod_insertMod_self]
    rfl
  · rw [lookupMod_insertMod_ne tbl p q t hq]
    exact h

theorem tickRecord_keys (s : TickState) (info : FileInfo) (q : String)
    (h : (lookupMod s.tbl q).isSome = true) :
    (lookupMod (tickRecord s info).tbl q).isSome = true := by
  unfold tickRecord
  split
  · exact lookupMod_insertMod_isSome _ _ _ _ h
  · exact h

theorem tickRecord_self (s : TickState) (info : FileInfo) :
    (lookupMod (tickRecord s info).tbl info.path).isSome = true := by
  unfold tickRecord changedCheck
  cases hlk : lookupMod s.tbl info.path with
  | none => simp [hlk, lookupMod_insertMod_self]
  | some t =>
    by_cases ht : t < info.modTime
    · simp [hlk, ht, lookupMod_insertMod_self]
    · simp [hlk, ht]

theorem tickStep_ok_cases (exts : List String) (mw : Nat) (s s1 : TickState)
    (e : WalkEntry) (h : tickStep exts mw s e = Except.ok s1) :
    s1 = s ∨ ∃ info, e = WalkEntry.ok info ∧ s1 = tickRecord s info := by
  cases e with
  | fail m => exact absurd h (by simp [tickStep])
  | ok info =>
    simp only [tickStep] at h
    by_cases hskip : (info.isDir || !shouldWatch exts info.path) = true
    · rw [if_pos hskip] at h
      exact Or.inl (Except.ok.inj h).symm
    · rw [if_neg hskip] at h
      by_cases hnone : (lookupMod s.tbl info.path).isNone = true
      · rw [if_pos hnone] at h
        by_cases hlen : mw ≤ (tickRecord s info).tbl.length
        · rw [if_pos hlen] at h
          exact absurd h (by simp)
        · rw [if_neg hlen] at h
          exact Or.inr ⟨info, rfl, (Except.ok.inj h).symm⟩
      · rw [if_neg hnone] at h
        exact Or.inr ⟨info, rfl, (Except.ok.inj h).symm⟩

theorem tickStep_keys (exts : List String) (mw : Nat) (s s1 : TickState)
    (e : WalkEntry) (h : tickStep exts mw s e = Except.ok s1) (q : String)
    (hq : (lookupMod s.tbl q).isSome = true) :
    (lookupMod s1.tbl q).isSome = true := by
  rcases tickStep_ok_cases exts mw s s1 e h with h1 | ⟨info, _, h1⟩
  · rw [h1]; exact hq
  · rw [h1]; exact tickRecord_keys s info q hq

theorem tickWalk_keys (exts : List String) (mw : Nat) :
    ∀ (es : List WalkEntry) (s s1 : TickState),
      tickWalk exts mw s es = Except.ok s1 →
      ∀ q, (lookupMod s.tbl q).isSome = true →
        (lookupMod s1.tbl q).isSome = true := by
  intro es
  induction es with
  | nil =>
    intro s s1 h q hq
    have h1 : s = s1 := Except.ok.inj h
    rw [← h1]
    exact hq
  | cons e es ih =>
    intro s s1 h q hq
    unfold tickWalk at h
    cases hst : tickStep exts mw s e with
    | error m => rw [hst] at h; exact absurd h (by simp)
    | ok s2 =>
      rw [hst] at h
      exact ih s2 s1 h q (tickStep_keys exts mw s s2 e hst q hq)

theorem tickStep_watched_mem (exts : List String) (mw : Nat) (s s1 : TickState)
    (info : FileInfo) (hd : info.isDir = false)
    (hw : shouldWatch exts info.path = true)
    (h : tickStep exts mw s (WalkEntry.ok info) = Except.ok s1) :
    (lookupMod s1.tbl info.path).isSome = true := by
  rcases tickStep_ok_cases exts mw s s1 (WalkEntry.ok info) h with h1 | ⟨info2, he, h1⟩
  · -- the skip branch is impossible for a watched non-directory entry,
    -- but in that branch the state is unchanged; show membership anyway
    have hskip : ¬ (info.isDir || !shouldWatch exts info.path) = true := by
      rw [hd, hw]
      simp
    simp only [tickStep, if_neg hskip] at h
    by_cases hnone : (lookupMod s.tbl info.path).isNone = true
    · rw [if_pos hnone] at h
      by_cases hlen : mw ≤ (tickRecord s info).tbl.length
      · rw [if_pos hlen] at h
        exact absurd h (by simp)
      · rw [if_neg hlen] at h
        rw [← Except.ok.inj h]
        exact tickRecord_self s info
    · rw [if_neg hnone] at h
      rw [← Except.ok.inj h]
      exact tickRecord_self s info
  · cases he
    rw [h1]
    exact tickRecord_self s info

theorem tickWalk_watched_mem (exts : List String) (mw : Nat) :
    ∀ (es : List WalkEntry) (s s1 : TickState),
      tickWalk exts mw s es = Except.ok s1 →
      ∀ info, WalkEntry.ok info ∈ es → info.isDir = false →
        shouldWatch exts info.path = true →
        (lookupMod s1.tbl info.path).isSome = true := by
  intro es
  induction es with
  | nil => intro s s1 _ info hmem; exact absurd hmem (by simp)
  | cons e es ih =>
    intro s s1 h info hmem hd hw
    unfold tickWalk at h
    cases hst : tickStep exts mw s e with
    | error m => rw [hst] at h; exact absurd h (by simp)
    | ok s2 =>
      rw [hst] at h
      rcases List.mem_cons.mp hmem with heq | hmem2
      · subst heq
        exact tickWalk_keys exts mw es s2 s1 h info.path
          (tickStep_watched_mem exts mw s s2 info hd hw hst)
      · exact ih s2 s1 h info hmem2 hd hw

theorem tickRecord_flag_log (s : TickState) (info : FileInfo)
    (h : s.changes = !s.changedLog.isEmpty) :
    (tickRecord s info).changes = !(tickRecord s info).changedLog.isEmpty := by
  unfold tickRecord
  split
  · simp
  · exact h

theorem tickStep_flag_log (exts : List String) (mw : Nat) (s s1 : TickState)
    (e : WalkEntry) (hstep : tickStep exts mw s e = Except.ok s1)
    (h : s.changes = !s.changedLog.isEmpty) :
    s1.changes = !s1.changedLog.isEmpty := by
  rcases tickStep_ok_cases exts mw s s1 e hstep with h1 | ⟨info, _, h1⟩
  · rw [h1]; exact h
  · rw [h1]; exact tickRecord_flag_log s info h

theorem tickWalk_flag_log (exts : List String) (mw : Nat) :
    ∀ (es : List WalkEntry) (s s1 : TickState),
      tickWalk exts mw s es = Except.ok s1 →
      s.changes = !s.changedLog.isEmpty →
      s1.changes = !s1.changedLog.isEmpty := by
  intro es
  induction es with
  | nil =>
    intro s s1 h hinv
    rw [← Except.ok.inj h]
    exact hinv
  | cons e es ih =>
    intro s s1 h hinv
    unfold tickWalk at h
    cases hst : tickStep exts mw s e with
    | error m => rw [hst] at h; exact absurd h (by simp)
    | ok s2 =>
      rw [hst] at h
      exact ih s2 s1 h (tickStep_flag_log exts mw s s2 e hst hinv)

theorem tickWalk_fail_after (exts : List String) (mw : Nat) :
    ∀ (pre : List WalkEntry) (s s1 : TickState) (m : String)
      (es : List WalkEntry),
      tickWalk exts mw s pre = Except.ok s1 →
      tickWalk exts mw s (pre ++ WalkEntry.fail m :: es) = Except.error m := by
  intro pre
  induction pre with
  | nil =>
    intro s s1 m es _
    simp [tickWalk, tickStep]
  | cons e pre ih =>
    intro s s1 m es h
    unfold tickWalk at h
    cases hst : tickStep exts mw s e with
    | error m0 => rw [hst] at h; exact absurd h (by simp)
    | ok s2 =>
      rw [hst] at h
      show tickWalk exts mw s (e :: (pre ++ WalkEntry.fail m :: es)) = Except.error m
      unfold tickWalk
      rw [hst]
      exact ih s2 s1 m es h

theorem tickStep_ok_watched (exts : List String) (mw : Nat) (s s1 : TickState)
    (info : FileInfo) (hd : info.isDir = false)
    (hw : shouldWatch exts info.path = true)
    (h : tickStep exts mw s (WalkEntry.ok info) = Except.ok s1) :
    s1 = tickRecord s info := by
  have hskip : ¬ (info.isDir || !shouldWatch exts info.path) = true := by
    rw [hd, hw]
    simp
  simp only [tickStep, if_neg hskip] at h
  by_cases hnone : (lookupMod s.tbl info.path).isNone = true
  · rw [if_pos hnone] at h
    by_cases hlen : mw ≤ (tickRecord s info).tbl.length
    · rw [if_pos hlen] at h
      exact absurd h (by simp)
    · rw [if_neg hlen] at h
      exact (Except.ok.inj h).symm
  · rw [if_neg hnone] at h
    exact (Except.ok.inj h).symm

theorem tickRecord_changes_iff (s : TickState) (info : FileInfo)
    (h : s.changes = false) :
    ((tickRecord s info).changes = true ↔
      lookupMod s.tbl info.path = none ∨
        ∃ t, lookupMod s.tbl info.path = some t ∧ t < info.modTime) := by
  unfold tickRecord changedCheck
  cases hlk : lookupMod s.tbl info.path with
  | none => simp [hlk]
  | some t =>
    by_cases ht : t < info.modTime
    · simp [hlk, ht]
    · simp [hlk, ht, h]

theorem watchTicks_cons_eq (exts : List String) (mw : Nat) (tbl : Fingerprints)
    (n : Nat) (tick : List WalkEntry) (ts : List (List WalkEntry)) :
    watchTicks exts mw tbl n (tick :: ts) =
      match tickWalk exts mw (tickInit tbl) tick with
      | Except.error e => DetectorOutcome.fatal e n
      | Except.ok s =>
        watchTicks exts mw s.tbl (n + (if s.changes then 1 else 0)) ts := rfl

/-- C1: on a detector poll tick, a watched non-directory file counts as
changed exactly when it is absent from the fingerprint table or its
modification timestamp strictly advanced; and a tick whose walk
completes without error sends exactly one coalesced notification on the
build channel when its change flag is set — which happens exactly when
at least one file was reported changed — and zero notifications
otherwise. -/
theorem tick_change_criterion_and_coalescing (exts : List String) (mw : Nat) :
    (∀ (tbl : Fingerprints) (info : FileInfo) (s1 : TickState),
        info.isDir = false → shouldWatch exts info.path = true →
        tickStep exts mw (tickInit tbl) (WalkEntry.ok info) = Except.ok s1 →
        (s1.changes = true ↔
          lookupMod tbl info.path = none ∨
            ∃ t, lookupMod tbl info.path = some t ∧ t < info.modTime)) ∧
    (∀ (tbl : Fingerprints) (tick : List WalkEntry)
        (ts : List (List WalkEntry)) (n : Nat) (s : TickState),
        tickWalk exts mw (tickInit tbl) tick = Except.ok s →
        (s.changes = true ↔ s.changedLog ≠ []) ∧
          watchTicks exts mw tbl n (tick :: ts) =
            watchTicks exts mw s.tbl (n + (if s.changes then 1 else 0)) ts) := by
  constructor
  · intro tbl info s1 hd hw h
    have hrec := tickStep_ok_watched exts mw (tickInit tbl) s1 info hd hw h
    rw [hrec]
    exact tickRecord_changes_iff (tickInit tbl) info rfl
  · intro tbl tick ts n s h
    constructor
    · have hflag := tickWalk_flag_log exts mw tick (tickInit tbl) s h rfl
      rw [hflag]
      cases s.changedLog <;> simp
    · rw [watchTicks_cons_eq, h]

/-- Witness for C1: a tick over table `[("a.go", 3)]` starting from the
empty table marks the file changed and sends exactly one notification. -/
theorem tick_change_criterion_and_coalescing_witness :
    ((TickState.mk [("a.go", 3)] true ["a.go"]).changes = true ↔
        lookupMod [] "a.go" = none ∨
          ∃ t, lookupMod [] "a.go" = some t ∧ t < 3) ∧
    watchTicks [".go"] 100 [] 0 [[WalkEntry.ok (FileInfo.mk "a.go" false 3)]] =
      watchTicks [".go"] 100 [("a.go", 3)]
        (0 + (if (TickState.mk [("a.go", 3)] true ["a.go"]).changes then 1 else 0))
        [] := by
  have h := tick_change_criterion_and_coalescing [".go"] 100
  constructor
  · exact h.1 [] (FileInfo.mk "a.go" false 3)
      (TickState.mk [("a.go", 3)] true ["a.go"]) rfl rfl rfl
  · exact (h.2 [] [WalkEntry.ok (FileInfo.mk "a.go" false 3)] [] 0
      (TickState.mk [("a.go", 3)] true ["a.go"]) rfl).2

/-- C2: when the build command exits non-zero, `buildAndRun` reports the
failure and returns before any launch: the run command is never invoked,
no process is started, the supervisor state is untouched (the previously
stopped process is not relaunched, leaving no process running), and the
event loop simply proceeds to its next event. -/
theorem build_failure_stops_before_launch (env : ExecEnv) (s : SupState)
    (rest : List LoopEvent) (hb : env.buildOk = false)
    (hs : processRunning s = false) :
    buildAndRun env s = (s, [Event.buildFailed]) ∧
    ¬ Event.runInvoked ∈ (buildAndRun env s).2 ∧
    ¬ Event.started ∈ (buildAndRun env s).2 ∧
    processRunning (buildAndRun env s).1 = false ∧
    runLoop s (LoopEvent.build env :: rest) =
      runLoop (buildAndRun env (stopProcess s)).1 rest := by
  have h1 : buildAndRun env s = (s, [Event.buildFailed]) := by
    unfold buildAndRun
    rw [if_pos hb]
  refine ⟨h1, ?_, ?_, ?_, rfl⟩
  · rw [h1]
    simp
  · rw [h1]
    simp
  · rw [h1]
    exact hs

/-- Witness for C2: a failing build from the fresh supervisor state
leaves no process running. -/
theorem build_failure_stops_before_launch_witness :
    processRunning (buildAndRun (ExecEnv.mk false true) (SupState.mk none)).1
      = false :=
  (build_failure_stops_before_launch (ExecEnv.mk false true) (SupState.mk none)
    [] rfl rfl).2.2.2.1

/-- C3: evaluation of the detector at the failing input `maxWatchers =
1`: the initial walk accepts exactly one watched file without error, but
a tick that discovers that single file mid-watch fails with the
watch-limit error even though the matched file count equals — does not
exceed — the limit (the mid-watch check fires at `len >= max`, the
initial check at `len > max`). -/
theorem watch_limit_boundary_eval :
    initialWalk [".go"] 1 [] [WalkEntry.ok (FileInfo.mk "a.go" false 1)] =
      Except.ok [("a.go", 1)] ∧
    watchFiles [".go"] 1 [] [[WalkEntry.ok (FileInfo.mk "a.go" false 1)]] =
      DetectorOutcome.fatal "Exceeded max watchers limit: 1" 0 :=
  ⟨rfl, by decide⟩

/-- C4: a walk error, in the initial walk or in any later tick,
propagates to the coordinator as a fatal detector failure carrying that
error and terminates the detector (later ticks are never processed),
while an error-free tick with no changes continues the loop; the walk
itself aborts at the first erroneous entry, so no walk error is
dropped. -/
theorem walk_error_terminates_detector (exts : List String) (mw : Nat) :
    (∀ (e : String) (initEntries : List WalkEntry)
        (ticks : List (List WalkEntry)),
        initialWalk exts mw [] initEntries = Except.error e →
        watchFiles exts mw initEntries ticks = DetectorOutcome.fatal e 0) ∧
    (∀ (tbl : Fingerprints) (n : Nat) (tick : List WalkEntry)
        (ts : List (List WalkEntry)) (e : String),
        tickWalk exts mw (tickInit tbl) tick = Except.error e →
        watchTicks exts mw tbl n (tick :: ts) = DetectorOutcome.fatal e n) ∧
    (∀ (tbl : Fingerprints) (n : Nat) (tick : List WalkEntry)
        (ts : List (List WalkEntry)) (s : TickState),
        tickWalk exts mw (tickInit tbl) tick = Except.ok s →
        s.changes = false →
        watchTicks exts mw tbl n (tick :: ts) = watchTicks exts mw s.tbl n ts) ∧
    (∀ (pre : List WalkEntry) (s0 s1 : TickState) (m : String)
        (es : List WalkEntry),
        tickWalk exts mw s0 pre = Except.ok s1 →
        tickWalk exts mw s0 (pre ++ WalkEntry.fail m :: es) = Except.error m) := by
  refine ⟨?_, ?_, ?_, tickWalk_fail_after exts mw⟩
  · intro e ie ticks h
    unfold watchFiles
    rw [h]
  · intro tbl n tick ts e h
    rw [watchTicks_cons_eq, h]
  · intro tbl n tick ts s h hch
    rw [watchTicks_cons_eq, h]
    show watchTicks exts mw s.tbl (n + (if s.changes then 1 else 0)) ts =
      watchTicks exts mw s.tbl n ts
    rw [hch]
    simp

/-- Witness for C4: a tick hitting a permission error becomes a fatal
detector outcome carrying that error. -/
theorem walk_error_terminates_detector_witness :
    watchTicks [".go"] 100 [] 0 [[WalkEntry.fail "perm"]] =
      DetectorOutcome.fatal "perm" 0 :=
  (walk_error_terminates_detector [".go"] 100).2.1 [] 0
    [WalkEntry.fail "perm"] [] "perm" rfl

theorem runLoop_decomp :
    ∀ (evs : List LoopEvent) (s : SupState) (c : Nat) (s1 : SupState),
      runLoop s evs = some (c, s1) →
      ∃ pre e rest, evs = pre ++ e :: rest ∧
        (∀ x ∈ pre, isBuildEvent x = true) ∧
        (((∃ m, e = LoopEvent.fatal m) ∧ c = 1) ∨
          (e = LoopEvent.shutdown ∧ c = 0)) := by
  intro evs
  induction evs with
  | nil =>
    intro s c s1 h
    exact absurd h (by simp [runLoop])
  | cons ev rest ih =>
    intro s c s1 h
    cases ev with
    | build env =>
      rcases ih (buildAndRun env (stopProcess s)).1 c s1 h with
        ⟨pre, e, rs, hsplit, hpre, hcode⟩
      refine ⟨LoopEvent.build env :: pre, e, rs, ?_, ?_, hcode⟩
      · rw [List.cons_append, ← hsplit]
      · intro x hx
        rcases List.mem_cons.mp hx with hx1 | hx2
        · rw [hx1]
          rfl
        · exact hpre x hx2
    | fatal m =>
      have h2 : ((1 : Nat), stopProcess s) = (c, s1) := Option.some.inj h
      cases h2
      exact ⟨[], LoopEvent.fatal m, rest, rfl, by simp, Or.inl ⟨⟨m, rfl⟩, rfl⟩⟩
    | shutdown =>
      have h2 : ((0 : Nat), stopProcess s) = (c, s1) := Option.some.inj h
      cases h2
      exact ⟨[], LoopEvent.shutdown, rest, rfl, by simp, Or.inr ⟨rfl, rfl⟩⟩

/-- C5: whenever the event loop terminates with an exit code, the events
before the terminating one are all build notifications — build or launch
failures never end the loop or change the code — and the code is 1
exactly for a fatal (detector) error and 0 exactly for the shutdown
signal; moreover a failing initial build leaves startup unchanged: the
loop proceeds from the fresh state. -/
theorem exit_code_discipline (s : SupState) (evs : List LoopEvent)
    (c : Nat) (s1 : SupState) (h : runLoop s evs = some (c, s1)) :
    (∃ pre e rest, evs = pre ++ e :: rest ∧
        (∀ x ∈ pre, isBuildEvent x = true) ∧
        (((∃ m, e = LoopEvent.fatal m) ∧ c = 1) ∨
          (e = LoopEvent.shutdown ∧ c = 0))) ∧
    (∀ env : ExecEnv, env.buildOk = false →
        mainRun env evs = runLoop (SupState.mk none) evs) := by
  refine ⟨runLoop_decomp evs s c s1 h, ?_⟩
  intro env hb
  unfold mainRun
  have h1 : buildAndRun env (SupState.mk none) =
      (SupState.mk none, [Event.buildFailed]) := by
    unfold buildAndRun
    rw [if_pos hb]
  rw [h1]

/-- Witness for C5: a failing rebuild followed by a fatal detector error
exits with code 1, with only build events before the terminator. -/
theorem exit_code_discipline_witness :
    ∃ pre e rest,
      ([LoopEvent.build (ExecEnv.mk false false),
        LoopEvent.fatal "walk failed"] : List LoopEvent) = pre ++ e :: rest ∧
      (∀ x ∈ pre, isBuildEvent x = true) ∧
      (((∃ m, e = LoopEvent.fatal m) ∧ 1 = 1) ∨
        (e = LoopEvent.shutdown ∧ 1 = 0)) :=
  (exit_code_discipline (SupState.mk none)
    [LoopEvent.build (ExecEnv.mk false false), LoopEvent.fatal "walk failed"]
    1 (SupState.mk none) rfl).1

/-- C6: `stopProcess` is a no-op, not an error, when no process handle
is tracked; it is idempotent — running it twice from any state gives the
same state as running it once — and it always ends in a "no process
running" state. -/
theorem terminate_noop_idempotent :
    (∀ s : SupState, trackedProcess s = false → stopProcess s = s) ∧
    (∀ s : SupState, stopProcess (stopProcess s) = stopProcess s) ∧
    (∀ s : SupState, processRunning (stopProcess s) = false) := by
  refine ⟨?_, ?_, ?_⟩
  · intro s h
    obtain ⟨c⟩ := s
    cases c with
    | none => rfl
    | some g =>
      obtain ⟨p⟩ := g
      cases p with
      | none => rfl
      | some ph =>
        exfalso
        simp [trackedProcess] at h
  · intro s
    obtain ⟨c⟩ := s
    cases c with
    | none => rfl
    | some g =>
      obtain ⟨p⟩ := g
      cases p with
      | none => rfl
      | some ph => rfl
  · intro s
    obtain ⟨c⟩ := s
    cases c with
    | none => rfl
    | some g =>
      obtain ⟨p⟩ := g
      cases p with
      | none => rfl
      | some ph => rfl

/-- Witness for C6: stopping with no command ever assigned changes
nothing. -/
theorem terminate_noop_idempotent_witness :
    stopProcess (SupState.mk none) = SupState.mk none :=
  terminate_noop_idempotent.1 (SupState.mk none) rfl

/-- C7: when the build succeeds but starting the artifact fails, the
failure is reported, no live handle is installed (`cmd.Process` stays
nil, so nothing is running), a subsequent `stopProcess` finds no active
process and does nothing, and `buildAndRun` still returns normally. -/
theorem launch_failure_no_handle (env : ExecEnv) (s : SupState)
    (hb : env.buildOk = true) (hr : env.startOk = false) :
    buildAndRun env s =
      (SupState.mk (some (GoCmd.mk none)),
        [Event.buildSucceeded, Event.runInvoked, Event.startFailed]) ∧
    Event.startFailed ∈ (buildAndRun env s).2 ∧
    ¬ Event.started ∈ (buildAndRun env s).2 ∧
    processRunning (buildAndRun env s).1 = false ∧
    stopProcess (buildAndRun env s).1 = (buildAndRun env s).1 := by
  have h1 : buildAndRun env s =
      (SupState.mk (some (GoCmd.mk none)),
        [Event.buildSucceeded, Event.runInvoked, Event.startFailed]) := by
    unfold buildAndRun
    rw [hb, hr]
    simp
  refine ⟨h1, ?_, ?_, ?_, ?_⟩
  · rw [h1]
    simp
  · rw [h1]
    simp
  · rw [h1]
    rfl
  · rw [h1]
    rfl

/-- Witness for C7: a failed launch from the fresh state leaves nothing
running. -/
theorem launch_failure_no_handle_witness :
    processRunning (buildAndRun (ExecEnv.mk true false) (SupState.mk none)).1
      = false :=
  (launch_failure_no_handle (ExecEnv.mk true false) (SupState.mk none)
    rfl rfl).2.2.2.1

/-- C8: `loadConfig` clamps out-of-range values without error:
`max_watchers` below 1 becomes the default 100 and above 500 becomes
500; an unparsable or empty `watch_interval` becomes the default 1s, a
parsed duration below 500ms becomes 500ms and above 1h becomes 1h; and
in-range values pass through unchanged. -/
theorem config_clamping :
    (∀ m : Int, m < 1 → clampMaxWatchers m = 100) ∧
    (∀ m : Int, m > 500 → clampMaxWatchers m = 500) ∧
    (∀ m : Int, 1 ≤ m → m ≤ 500 → clampMaxWatchers m = m) ∧
    (∀ raw : String, clampInterval raw none = ("1s", nsPerSec)) ∧
    (∀ d : Int, clampInterval "" (some d) = ("1s", nsPerSec)) ∧
    (∀ (raw : String) (d : Int), raw ≠ "" → d < 500 * nsPerMs →
        clampInterval raw (some d) = ("500ms", 500 * nsPerMs)) ∧
    (∀ (raw : String) (d : Int), raw ≠ "" → d > 3600 * nsPerSec →
        clampInterval raw (some d) = ("1h", 3600 * nsPerSec)) ∧
    (∀ (raw : String) (d : Int), raw ≠ "" → 500 * nsPerMs ≤ d →
        d ≤ 3600 * nsPerSec → clampInterval raw (some d) = (raw, d)) := by
  refine ⟨?_, ?_, ?_, ?_, ?_, ?_, ?_, ?_⟩
  · intro m hm
    unfold clampMaxWatchers
    rw [if_pos hm]
  · intro m hm
    unfold clampMaxWatchers
    rw [if_neg (by omega), if_pos hm]
  · intro m hm1 hm2
    unfold clampMaxWatchers
    rw [if_neg (by omega), if_neg (by omega)]
  · intro raw
    rfl
  · intro d
    unfold clampInterval
    simp only [if_pos rfl]
    norm_num [nsPerMs, nsPerSec]
  · intro raw d hraw hd
    unfold clampInterval
    simp only [if_neg hraw]
    rw [if_pos (show (raw, d).2 < 500 * nsPerMs from hd)]
  · intro raw d hraw hd
    unfold clampInterval
    simp only [if_neg hraw]
    rw [if_neg (show ¬ (raw, d).2 < 500 * nsPerMs by
          simp only [nsPerMs, nsPerSec] at hd ⊢
          omega),
        if_pos (show (raw, d).2 > 3600 * nsPerSec from hd)]
  · intro raw d hraw hd1 hd2
    unfold clampInterval
    simp only [if_neg hraw]
    rw [if_neg (show ¬ (raw, d).2 < 500 * nsPerMs by
          simp only [nsPerMs] at hd1 ⊢
          omega),
        if_neg (show ¬ (raw, d).2 > 3600 * nsPerSec by
          simp only [nsPerSec] at hd2 ⊢
          omega)]

/-- Witness for C8: the spec's four scenario values. -/
theorem config_clamping_witness :
    clampMaxWatchers 0 = 100 ∧ clampMaxWatchers 1000 = 500 ∧
    clampInterval "300ms" (some (300 * nsPerMs)) =
      ("500ms", 500 * nsPerMs) ∧
    clampInterval "2h" (some (7200 * nsPerSec)) =
      ("1h", 3600 * nsPerSec) := by
  refine ⟨config_clamping.1 0 (by norm_num),
    config_clamping.2.1 1000 (by norm_num),
    config_clamping.2.2.2.2.2.1 "300ms" (300 * nsPerMs) (by decide) ?_,
    config_clamping.2.2.2.2.2.2.1 "2h" (7200 * nsPerSec) (by decide) ?_⟩
  · norm_num [nsPerMs]
  · norm_num [nsPerSec]

/-- C9 counterexample: a pass in which the watched file `a.go` is no
longer present (the walk yields no entries) completes without change and
leaves the table still holding the stale entry — the table does not lose
the entry of a file that disappeared. -/
theorem fingerprint_no_removal_cex :
    tickWalk [".go"] 100 (tickInit [("a.go", 5)]) [] =
      Except.ok (TickState.mk [("a.go", 5)] false []) ∧
    watchTicks [".go"] 100 [("a.go", 5)] 0 [[]] =
      DetectorOutcome.running [("a.go", 5)] 0 ∧
    lookupMod [("a.go", 5)] "a.go" = some 5 :=
  ⟨rfl, rfl, rfl⟩

/-- C9 (amended): across a detector pass the fingerprint table gains an
entry for every newly discovered watched file, and never loses an entry:
every path present before the pass is still present after it, so the
entry of a watched file that is no longer on disk lingers; the table is
mutated only through the pass itself (state passing in `tickWalk`). -/
theorem fingerprint_grow_persist (exts : List String) (mw : Nat)
    (tbl : Fingerprints) (entries : List WalkEntry) (s1 : TickState)
    (h : tickWalk exts mw (tickInit tbl) entries = Except.ok s1) :
    (∀ q, (lookupMod tbl q).isSome = true →
        (lookupMod s1.tbl q).isSome = true) ∧
    (∀ info, WalkEntry.ok info ∈ entries → info.isDir = false →
        shouldWatch exts info.path = true →
        (lookupMod s1.tbl info.path).isSome = true) :=
  ⟨fun q hq => tickWalk_keys exts mw entries (tickInit tbl) s1 h q hq,
   fun info hm hd hw =>
     tickWalk_watched_mem exts mw entries (tickInit tbl) s1 h info hm hd hw⟩

/-- Witness for C9 (amended): a pass that discovers `b.go` keeps the old
entry for `a.go` and adds one for `b.go`. -/
theorem fingerprint_grow_persist_witness :
    (lookupMod [("a.go", 1), ("b.go", 2)] "a.go").isSome = true ∧
    (lookupMod [("a.go", 1), ("b.go", 2)] "b.go").isSome = true := by
  have h := fingerprint_grow_persist [".go"] 100 [("a.go", 1)]
    [WalkEntry.ok (FileInfo.mk "b.go" false 2)]
    (TickState.mk [("a.go", 1), ("b.go", 2)] true ["b.go"]) rfl
  exact ⟨h.1 "a.go" rfl,
    h.2 (FileInfo.mk "b.go" false 2) (by simp) rfl rfl⟩

/-- C10: `stopProcess` is safe in every supervisor state: the nil guards
make it a silent no-op when no command was ever assigned or when the
last launch's `Start` failed (the `Process` field is nil, as after a
failed launch), and a repeated call is harmless in any state. -/
theorem stopProcess_total_safe :
    (∀ s : SupState, s.cmd = none → stopProcess s = s) ∧
    (∀ (s : SupState) (c : GoCmd), s.cmd = some c → c.process = none →
        stopProcess s = s) ∧
    (∀ (env : ExecEnv) (s : SupState), env.buildOk = true →
        env.startOk = false →
        stopProcess (buildAndRun env s).1 = (buildAndRun env s).1) ∧
    (∀ s : SupState, stopProcess (stopProcess s) = stopProcess s) := by
  refine ⟨?_, ?_, ?_, ?_⟩
  · intro s h
    unfold stopProcess
    rw [h]
  · intro s c h hp
    obtain ⟨cc⟩ := s
    have h2 : cc = some c := h
    subst h2
    obtain ⟨p⟩ := c
    have hp2 : p = none := hp
    subst hp2
    rfl
  · intro env s hb hr
    have h1 : buildAndRun env s =
        (SupState.mk (some (GoCmd.mk none)),
          [Event.buildSucceeded, Event.runInvoked, Event.startFailed]) := by
      unfold buildAndRun
      rw [hb, hr]
      simp
    rw [h1]
    rfl
  · intro s
    obtain ⟨c⟩ := s
    cases c with
    | none => rfl
    | some g =>
      obtain ⟨p⟩ := g
      cases p with
      | none => rfl
      | some ph => rfl

/-- Witness for C10: stopping after an assigned command whose start
failed changes nothing. -/
theorem stopProcess_total_safe_witness :
    stopProcess (SupState.mk (some (GoCmd.mk none))) =
      SupState.mk (some (GoCmd.mk none)) :=
  stopProcess_total_safe.2.1 (SupState.mk (some (GoCmd.mk none)))
    (GoCmd.mk none) rfl rfl

end Pulse
